import Mathlib

/-!
Verification of the overlay-synchronization / auto-correction core of the
Harper-Checker browser extension (`src/content-script.js`).

Texts are modelled as `List Char` (JavaScript strings indexed by code units;
all texts used here are within the BMP, where code units and code points
coincide).  JavaScript `String.prototype.slice` / `substring` clamping
semantics are modelled explicitly, and a possibly-`NaN` index is modelled by
the type `JSNum`.
-/

namespace HarperChecker

/-- Characters matched by the JavaScript regular-expression class `\s`
(whitespace, line terminators, NBSP, Unicode space separators, BOM). -/
def isJsSpace (c : Char) : Bool :=
  c == ' ' || c == '\t' || c == '\n' || c == '\r' ||
  c.toNat == 11 || c.toNat == 12 ||
  c.toNat == 0xa0 || c.toNat == 0x1680 ||
  (decide (0x2000 ≤ c.toNat) && decide (c.toNat ≤ 0x200a)) ||
  c.toNat == 0x2028 || c.toNat == 0x2029 || c.toNat == 0x202f ||
  c.toNat == 0x205f || c.toNat == 0x3000 || c.toNat == 0xfeff

/-- Model of `/\s/.test(text[i])` in JavaScript: an in-range index tests the
character; an out-of-range index yields `undefined`, whose string form
contains no whitespace, so the test is `false`. -/
def jsCharTestSpace (text : List Char) (i : Nat) : Bool :=
  match text[i]? with
  | some c => isJsSpace c
  | none => false

/-- Normalisation of one `slice` index (ECMAScript `String.prototype.slice`):
a negative index counts from the end and the result is clamped into
`[0, len]`. -/
def jsClampIndex (len : Nat) (i : Int) : Nat :=
  if i < 0 then len - min (-i).toNat len else min i.toNat len

/-- JavaScript `s.slice(a, b)` on a string modelled as a character list.
When the normalised end does not exceed the normalised start the result is
empty. -/
def jsSlice (s : List Char) (a b : Int) : List Char :=
  (s.take (jsClampIndex s.length b)).drop (jsClampIndex s.length a)

/-- JavaScript `s.slice(a)` (slice to the end of the string). -/
def jsSliceFrom (s : List Char) (a : Int) : List Char :=
  jsSlice s a (s.length : Int)

/-- JavaScript `s.substring(a, b)` for non-negative indices: both indices are
clamped to the length and swapped when given in descending order. -/
def jsSubstring (s : List Char) (a b : Nat) : List Char :=
  let a2 := min a s.length
  let b2 := min b s.length
  (s.take (max a2 b2)).drop (min a2 b2)

/-- JavaScript `s.trim()`: strip the whitespace class from both ends. -/
def jsTrim (s : List Char) : List Char :=
  ((s.dropWhile isJsSpace).reverse.dropWhile isJsSpace).reverse

/-- A JavaScript number used as a replacement index: either `NaN` or an
integer (the code paths modelled here only ever produce integral values). -/
inductive JSNum where
  | nan : JSNum
  | num : Int → JSNum
deriving DecidableEq

/-- One entry of the per-element error list stored in `window._harperErrorMap`
by `processElement` (content-script.js lines 510-518): a half-open span and
the ranked replacement suggestions. -/
structure ErrorRecord where
  start : Nat
  endPos : Nat
  suggestions : List (List Char)
deriving DecidableEq

/-- One raw lint result produced by the analyzer (`harperLinter.lint`):
a span, a category tag (`lint_kind()`), and ranked suggestions. -/
structure LintError where
  start : Nat
  endPos : Nat
  lintKind : List Char
  suggestions : List (List Char)
deriving DecidableEq

/-- Projection of an analyzer result into the stored form kept in
`window._harperErrorMap` (content-script.js lines 512-517). -/
def toStoredError (e : LintError) : ErrorRecord :=
  { start := e.start, endPos := e.endPos, suggestions := e.suggestions }

/-- The record `window._lastAutoCorrection` (content-script.js lines 842-852):
the single process-wide slot remembering the most recent auto-correction.
The surface is identified by a numeric element identity. -/
structure CorrectionRecord where
  elementId : Nat
  originalWord : List Char
  correctedWord : List Char
  posStart : Nat
  posEnd : Nat
  timestamp : Nat
deriving DecidableEq

/-- Result of `applyTextReplacement`: the new surface text and, when the
replacement went through and the element is focused, the caret offset the
code assigns (`newPos = start + replacementText.length`); `none` means the
operation aborted and neither text nor caret was touched. -/
structure ReplaceResult where
  text : List Char
  caret : Option Int
deriving DecidableEq

/-- `applyTextReplacement(element, start, end, replacementText)`
(content-script.js lines 408-491).  If either index is `NaN` the function
logs and returns without mutating (`isNaN` guard, lines 412-415 / 468-471).
Otherwise it computes the whole new content first —
`oldText.slice(0, start) + replacementText + oldText.slice(end)` — assigns
it, and places the caret at `start + replacementText.length`. -/
def applyTextReplacement (text : List Char) (start endIdx : JSNum)
    (replacementText : List Char) : ReplaceResult :=
  match start, endIdx with
  | JSNum.num s, JSNum.num e =>
      { text := jsSlice text 0 s ++ replacementText ++ jsSliceFrom text e,
        caret := some (s + (replacementText.length : Int)) }
  | _, _ => { text := text, caret := none }

/-- `findWordStart(text, position)` (content-script.js lines 716-723): walk
left from `position` while the preceding character is non-whitespace. -/
def findWordStart (text : List Char) : Nat → Nat
  | 0 => 0
  | s + 1 => if jsCharTestSpace text s then s + 1 else findWordStart text s

/-- `analyzeText(text)` (content-script.js lines 68-82), after the readiness
gate: if the linter is missing, return `[]`; if the text trims to empty,
return `[]` without invoking the linter; otherwise invoke it, catching any
thrown exception (modelled as `Except.error`) and returning `[]` in that
case. -/
def analyzeText
    (linter : Option (List Char → Except (List Char) (List LintError)))
    (text : List Char) : List LintError :=
  match linter with
  | none => []
  | some lintFn =>
      if (jsTrim text).length = 0 then []
      else
        match lintFn text with
        | Except.ok errors => errors
        | Except.error _ => []

/-- The per-element error cache `window._harperErrorMap`, keyed by element
identity. -/
abbrev ErrorMap := List (Nat × List ErrorRecord)

/-- JavaScript `Map.prototype.set`: replace the value at an existing key,
otherwise append the new binding. -/
def mapSet (m : ErrorMap) (k : Nat) (v : List ErrorRecord) : ErrorMap :=
  if m.any (fun p => p.1 == k) then
    m.map (fun p => if p.1 == k then (k, v) else p)
  else m ++ [(k, v)]

/-- JavaScript `Map.prototype.get` (as an `Option`). -/
def mapGet (m : ErrorMap) (k : Nat) : Option (List ErrorRecord) :=
  (m.find? (fun p => p.1 == k)).map (fun p => p.2)

/-- The completion step of one `processElement` pass (content-script.js lines
503-522): when the awaited `analyzeText` call resolves, the stored list for
the element is unconditionally replaced by this pass's result
(`window._harperErrorMap.set(element, ...)`, line 511) — there is no pass
counter and no staleness check. -/
def processElementResolve (errorMap : ErrorMap) (elementId : Nat)
    (linter : Option (List Char → Except (List Char) (List LintError)))
    (snapshotText : List Char) : ErrorMap :=
  mapSet errorMap elementId ((analyzeText linter snapshotText).map toStoredError)

/-- Caret adjustment at the start of `tryAutoCorrect` (content-script.js lines
756-760): when the character just before the caret is the triggering space,
look at the word before it. -/
def adjustedCaret (text : List Char) (caretPos0 : Nat) : Nat :=
  if 0 < caretPos0 ∧ text[caretPos0 - 1]? = some ' ' then caretPos0 - 1
  else caretPos0

/-- The three-tier error matching of `tryAutoCorrect` (content-script.js
lines 792-819): first an exact span match on the word boundaries, then an
error whose span contains the boundaries, then `err.start <= caretPos &&
err.end > wordStart`; each tier takes the first list element satisfying it. -/
def findMatchingError (storedErrors : List ErrorRecord)
    (wordStart caretPos : Nat) : Option ErrorRecord :=
  match storedErrors.find? (fun err =>
      decide (err.start = wordStart ∧ err.endPos = caretPos)) with
  | some e => some e
  | none =>
      match storedErrors.find? (fun err =>
          decide (err.start ≤ wordStart ∧ caretPos ≤ err.endPos)) with
      | some e => some e
      | none =>
          storedErrors.find? (fun err =>
            decide (err.start ≤ caretPos ∧ wordStart < err.endPos))

/-- Outcome of `tryAutoCorrect`: the (possibly rewritten) surface text, caret,
the process-wide correction slot, and the function's boolean return value. -/
structure AutoCorrectOutcome where
  text : List Char
  caret : Nat
  lastAutoCorrection : Option CorrectionRecord
  applied : Bool
deriving DecidableEq

/-- `tryAutoCorrect(element)` (content-script.js lines 729-871), on the
linear-offset view of the surface.  Inputs: the `_autoCorrectEnabled` flag,
the current `_lastAutoCorrection` slot, the element identity, that element's
entry in `_harperErrorMap` (`none` when `has` fails), the surface text, the
caret, and the current time (for the record's timestamp).  Follows the
source's guard order: enabled-check, map-membership check, space adjustment,
empty-word checks, three-tier matching, suggestion check, then replacement
of the error span by `suggestion + ' '` and overwrite of the slot. -/
def tryAutoCorrect (autoCorrectEnabled : Bool)
    (lastAutoCorrection : Option CorrectionRecord) (elementId : Nat)
    (errorMapEntry : Option (List ErrorRecord)) (text : List Char)
    (caretPos0 : Nat) (now : Nat) : AutoCorrectOutcome :=
  let unchanged : AutoCorrectOutcome :=
    { text := text, caret := caretPos0,
      lastAutoCorrection := lastAutoCorrection, applied := false }
  if autoCorrectEnabled = false then unchanged
  else
    match errorMapEntry with
    | none => unchanged
    | some storedErrors =>
        let caretPos := adjustedCaret text caretPos0
        let wordStart := findWordStart text caretPos
        if wordStart = caretPos then unchanged
        else
          let currentWord := jsSubstring text wordStart caretPos
          if jsTrim currentWord = [] then unchanged
          else
            match findMatchingError storedErrors wordStart caretPos with
            | none => unchanged
            | some error =>
                match error.suggestions with
                | [] => unchanged
                | suggestion :: _ =>
                    let originalWord := jsSubstring text error.start error.endPos
                    let replacementWithSpace := suggestion ++ [' ']
                    let newRecord : CorrectionRecord :=
                      { elementId := elementId,
                        originalWord := originalWord,
                        correctedWord := suggestion,
                        posStart := error.start,
                        posEnd := error.start + replacementWithSpace.length,
                        timestamp := now }
                    let r := applyTextReplacement text (JSNum.num (error.start : Int))
                      (JSNum.num (error.endPos : Int)) replacementWithSpace
                    { text := r.text,
                      caret := ((r.caret.getD (caretPos0 : Int)).toNat),
                      lastAutoCorrection := some newRecord,
                      applied := true }

/-- Outcome of `tryRevertCorrection`: surface text, caret, the correction
slot, and the function's boolean return value. -/
structure RevertOutcome where
  text : List Char
  caret : Nat
  lastAutoCorrection : Option CorrectionRecord
  reverted : Bool
deriving DecidableEq

/-- `tryRevertCorrection(element)` (content-script.js lines 878-935) on the
linear-offset view of the surface.  A missing record or one for another
element is a silent no-op; a caret anywhere but exactly
`correction.start + correctedWord.length` is a silent no-op that additionally
discards the record when the divergence exceeds 2; otherwise the span
`[posStart, posEnd)` is replaced by the original word and the slot cleared. -/
def tryRevertCorrection (lastAutoCorrection : Option CorrectionRecord)
    (elementId : Nat) (text : List Char) (caretPos : Nat) : RevertOutcome :=
  let keep : RevertOutcome :=
    { text := text, caret := caretPos,
      lastAutoCorrection := lastAutoCorrection, reverted := false }
  match lastAutoCorrection with
  | none => keep
  | some correction =>
      if correction.elementId ≠ elementId then keep
      else
        let expectedPosAfterBackspace :=
          correction.posStart + correction.correctedWord.length
        if caretPos ≠ expectedPosAfterBackspace then
          if ((caretPos : Int) - (expectedPosAfterBackspace : Int)).natAbs > 2 then
            { keep with lastAutoCorrection := none }
          else keep
        else
          let r := applyTextReplacement text
            (JSNum.num (correction.posStart : Int))
            (JSNum.num (correction.posEnd : Int)) correction.originalWord
          { text := r.text,
            caret := ((r.caret.getD (caretPos : Int)).toNat),
            lastAutoCorrection := none,
            reverted := true }

/-- JavaScript `hay.includes(needle)` (substring containment); the needle is
the first argument here. -/
def jsIncludes (needle : List Char) : List Char → Bool
  | [] => needle.isEmpty
  | c :: rest => needle.isPrefixOf (c :: rest) || jsIncludes needle rest

/-- `getErrorColor(kindRaw)` (content-script.js lines 89-97): case-insensitive
substring match on the category tag, first match wins, `gray` otherwise. -/
def getErrorColor (kindRaw : List Char) : List Char :=
  let kind := kindRaw.map Char.toLower
  if jsIncludes "spell".data kind then "red".data
  else if jsIncludes "word".data kind then "green".data
  else if jsIncludes "style".data kind then "orange".data
  else if jsIncludes "repetition".data kind then "blue".data
  else "gray".data

/-- Lower-case hexadecimal digit (used by JSON string escapes). -/
def hexDigitLower (n : Nat) : Char :=
  if n < 10 then Char.ofNat (48 + n) else Char.ofNat (87 + n)

/-- Upper-case hexadecimal digit (used by `encodeURIComponent`). -/
def hexDigitUpper (n : Nat) : Char :=
  if n < 10 then Char.ofNat (48 + n) else Char.ofNat (55 + n)

/-- `JSON.stringify` escaping of one character inside a string literal. -/
def jsonEscapeChar (c : Char) : List Char :=
  if c = '"' then ['\\', '"']
  else if c = '\\' then ['\\', '\\']
  else if c = '\x08' then ['\\', 'b']
  else if c = '\x0c' then ['\\', 'f']
  else if c = '\n' then ['\\', 'n']
  else if c = '\r' then ['\\', 'r']
  else if c = '\t' then ['\\', 't']
  else if c.toNat < 0x20 then
    ['\\', 'u', '0', '0', hexDigitLower (c.toNat / 16), hexDigitLower (c.toNat % 16)]
  else [c]

/-- `JSON.stringify` of one string. -/
def jsonStringifyString (s : List Char) : List Char :=
  '"' :: (s.flatMap jsonEscapeChar) ++ ['"']

/-- `JSON.stringify` of an array of strings. -/
def jsonStringifyStringList (l : List (List Char)) : List Char :=
  '[' :: (List.intercalate [','] (l.map jsonStringifyString)) ++ [']']

/-- Characters left unescaped by `encodeURIComponent`
(`A-Z a-z 0-9 - _ . ! ~ * ' ( )`). -/
def isUriUnreserved (c : Char) : Bool :=
  decide (('A' ≤ c ∧ c ≤ 'Z') ∨ ('a' ≤ c ∧ c ≤ 'z') ∨ ('0' ≤ c ∧ c ≤ '9')) ||
  c == '-' || c == '_' || c == '.' || c == '!' || c == '~' || c == '*' ||
  c == '(' || c == ')' || c == Char.ofNat 39

/-- UTF-8 encoding of a code point as a byte list. -/
def utf8Bytes (n : Nat) : List Nat :=
  if n < 0x80 then [n]
  else if n < 0x800 then [0xc0 + n / 0x40, 0x80 + n % 0x40]
  else if n < 0x10000 then
    [0xe0 + n / 0x1000, 0x80 + (n / 0x40) % 0x40, 0x80 + n % 0x40]
  else
    [0xf0 + n / 0x40000, 0x80 + (n / 0x1000) % 0x40,
     0x80 + (n / 0x40) % 0x40, 0x80 + n % 0x40]

/-- Percent-encoding of one byte. -/
def percentByte (b : Nat) : List Char :=
  ['%', hexDigitUpper (b / 16), hexDigitUpper (b % 16)]

/-- JavaScript `encodeURIComponent`. -/
def encodeUriComponent (s : List Char) : List Char :=
  s.flatMap (fun c =>
    if isUriUnreserved c then [c] else (utf8Bytes c.toNat).flatMap percentByte)

/-- The opening `<span ...>` tag built by `renderErrors` for one error
(content-script.js lines 132-135), including the newlines and indentation of
the template literal. -/
def spanHtmlOpenTag (e : LintError) : List Char :=
  let color := getErrorColor e.lintKind
  let suggestionsJson := encodeUriComponent (jsonStringifyStringList e.suggestions)
  "<span class=\"harper-error\"\n      style=\"text-decoration: underline; text-decoration-color: ".data
    ++ color
    ++ "; text-decoration-style: solid;\"\n      data-suggestions=\"".data
    ++ suggestionsJson
    ++ "\"\n      data-start=\"".data ++ Nat.toDigits 10 e.start
    ++ "\" data-end=\"".data ++ Nat.toDigits 10 e.endPos
    ++ "\">".data

/-- The full wrapped-error markup `spanHtml` (content-script.js lines
132-137): opening tag, the error's slice of the original `text`, and the
closing tag. -/
def spanHtml (text : List Char) (e : LintError) : List Char :=
  spanHtmlOpenTag e ++ jsSlice text (e.start : Int) (e.endPos : Int) ++ "</span>".data

/-- The comparator `(a, b) => b.span().start - a.span().start` used at
content-script.js line 118, as an ordering relation: descending `start`. -/
def errorDescOrder (a b : LintError) : Prop := b.start ≤ a.start

instance : DecidableRel errorDescOrder := fun a b => Nat.decLe b.start a.start

instance : IsTotal LintError errorDescOrder :=
  ⟨fun a b => Nat.le_total b.start a.start⟩

instance : IsTrans LintError errorDescOrder :=
  ⟨fun _ _ _ h1 h2 => Nat.le_trans h2 h1⟩

/-- `errors.sort((a, b) => b.span().start - a.span().start)` — a stable sort
into descending `start` order (content-script.js line 118). -/
def sortErrorsDesc (errors : List LintError) : List LintError :=
  List.insertionSort errorDescOrder errors

/-- One splice of the `forEach` body of `renderErrors` (content-script.js
line 139): `html = html.slice(0, span.start) + spanHtml + html.slice(span.end)`. -/
def renderSplice (text html : List Char) (e : LintError) : List Char :=
  jsSlice html 0 (e.start : Int) ++ spanHtml text e ++ jsSliceFrom html (e.endPos : Int)

/-- The markup string built by `renderErrors` (content-script.js lines
117-143): sort the errors into descending `start` order, then splice each
wrapped span into the accumulating string. -/
def renderHtml (text : List Char) (errors : List LintError) : List Char :=
  (sortErrorsDesc errors).foldl (renderSplice text) text

/-- Instrumented version of the `renderErrors` splice loop checking that each
splice uses a non-inverted, in-bounds range on the current accumulator. -/
def renderSplicesOkAux (text : List Char) : List Char → List LintError → Bool
  | _, [] => true
  | html, e :: rest =>
      decide (e.start ≤ e.endPos ∧ e.endPos ≤ html.length) &&
      renderSplicesOkAux text (renderSplice text html e) rest

/-- All splices performed by `renderErrors` on the given input use
non-inverted, in-bounds ranges. -/
def renderSplicesOk (text : List Char) (errors : List LintError) : Bool :=
  renderSplicesOkAux text text (sortErrorsDesc errors)

/-- The browser's own editing action for a `deleteContentBackward` input
event (a single backspace): remove the character before the caret.  This is
user-agent behavior, not repository code; it supplies the keystroke between
the correction and the revert in the round-trip scenario. -/
def backspaceDeleteBackward (text : List Char) (caret : Nat) : List Char × Nat :=
  (text.take (caret - 1) ++ text.drop caret, caret - 1)

/-- Analyzer stub for the analysis-race scenario: it flags `hav` (span
`[2,5)`, suggestion `have`) in the stale text `I hav a dog` and reports
nothing for the corrected text `I have a dog`. -/
def lintStubRace : List Char → Except (List Char) (List LintError) := fun text =>
  if text = "I hav a dog".data then
    Except.ok [⟨2, 5, "Spelling".data, ["have".data]⟩]
  else Except.ok []

section Lemmas

theorem jsClampIndex_zero (len : Nat) : jsClampIndex len 0 = 0 := by
  simp [jsClampIndex]

theorem jsClampIndex_natCast (len s : Nat) : jsClampIndex len (s : Int) = min s len := by
  unfold jsClampIndex
  rw [if_neg (by exact not_lt.mpr (Int.natCast_nonneg s))]
  simp

theorem jsSlice_natCast (t : List Char) (s e : Nat) :
    jsSlice t (s : Int) (e : Int) = (t.take (min e t.length)).drop (min s t.length) := by
  unfold jsSlice
  rw [jsClampIndex_natCast, jsClampIndex_natCast]

theorem jsSlice_zero_natCast (t : List Char) (s : Nat) (h : s ≤ t.length) :
    jsSlice t 0 (s : Int) = t.take s := by
  unfold jsSlice
  rw [jsClampIndex_zero, jsClampIndex_natCast, List.drop_zero, min_eq_left h]

theorem jsSliceFrom_natCast (t : List Char) (e : Nat) :
    jsSliceFrom t (e : Int) = t.drop (min e t.length) := by
  unfold jsSliceFrom
  rw [jsSlice_natCast]
  simp

theorem jsSubstring_eq (t : List Char) (a b : Nat) (hab : a ≤ b) (hb : b ≤ t.length) :
    jsSubstring t a b = (t.take b).drop a := by
  unfold jsSubstring
  have h1 : min a t.length = a := min_eq_left (le_trans hab hb)
  have h2 : min b t.length = b := min_eq_left hb
  simp only [h1, h2, max_eq_right hab, min_eq_left hab]

theorem applyTextReplacement_num (t : List Char) (s e : Nat) (r : List Char)
    (hs : s ≤ t.length) :
    applyTextReplacement t (JSNum.num (s : Int)) (JSNum.num (e : Int)) r =
      { text := t.take s ++ r ++ t.drop (min e t.length),
        caret := some ((s : Int) + (r.length : Int)) } := by
  simp only [applyTextReplacement]
  rw [jsSlice_zero_natCast t s hs, jsSliceFrom_natCast]

end Lemmas

/-- C1: the claim asserts a superseded analysis pass can never overwrite a
newer one.  The code has no pass counter: `processElement` stores whichever
pass resolves last (unconditional `Map.set`).  Concretely: a pass over the
stale snapshot `I hav a dog` that resolves after the pass over the current
text `I have a dog` replaces the newer (empty) error list with the stale
one-error list, so stale offsets can be consulted after the text changed. -/
theorem c1_stale_pass_overwrites :
    mapGet (processElementResolve [] 0 (some lintStubRace) "I have a dog".data) 0
      = some [] ∧
    mapGet (processElementResolve
        (processElementResolve [] 0 (some lintStubRace) "I have a dog".data)
        0 (some lintStubRace) "I hav a dog".data) 0
      = some [⟨2, 5, ["have".data]⟩] ∧
    ([⟨2, 5, ["have".data]⟩] : List ErrorRecord) ≠ [] := by decide

/-- C4, step outcomes of the round-trip scenario: the space-triggered
correction on `I has a dog` (caret 6, error `[2,5)` with suggestion `have`). -/
def c4AfterCorrection : AutoCorrectOutcome :=
  tryAutoCorrect true none 0 (some [⟨2, 5, ["have".data]⟩]) "I has a dog".data 6 0

/-- C4, state after the user's single backspace following the correction. -/
def c4AfterBackspace : List Char × Nat :=
  backspaceDeleteBackward c4AfterCorrection.text c4AfterCorrection.caret

/-- C4, outcome of the revert attempt triggered by that backspace. -/
def c4AfterRevert : RevertOutcome :=
  tryRevertCorrection c4AfterCorrection.lastAutoCorrection 0
    c4AfterBackspace.1 c4AfterBackspace.2

/-- C4: evaluating the code on the claim's scenario.  The claim (and spec
section 8) expects text `I have a dog` with caret 8 after the correction and
`I has a dog` restored after one backspace.  The code instead leaves the
triggering space in place while also appending one, producing
`I have  a dog` (double space) with caret 7; the backspace then deletes the
inserted space and the revert replaces `[2,7)` — which now covers the
user-typed space — yielding `I hasa dog`, not `I has a dog`.  The record is
cleared, so a second backspace cannot re-revert. -/
theorem c4_roundtrip_failure :
    c4AfterCorrection.text = "I have  a dog".data ∧
    c4AfterCorrection.caret = 7 ∧
    c4AfterCorrection.text ≠ "I have a dog".data ∧
    c4AfterCorrection.lastAutoCorrection =
      some ⟨0, "has".data, "have".data, 2, 7, 0⟩ ∧
    c4AfterBackspace.1 = "I have a dog".data ∧
    c4AfterRevert.reverted = true ∧
    c4AfterRevert.text = "I hasa dog".data ∧
    c4AfterRevert.text ≠ "I has a dog".data ∧
    c4AfterRevert.lastAutoCorrection = none := by decide

/-- C5 counterexample: the claim says an out-of-range end offset aborts the
replacement and leaves the surface untouched.  With text `abc` (length 3)
and the out-of-range pair `start = 0`, `end = 5` (not `NaN`), the code does
not abort: `slice` clamps and the text becomes `x`. -/
theorem c5_counterexample :
    ("abc".data.length < 5) ∧
    (applyTextReplacement "abc".data (JSNum.num 0) (JSNum.num 5) "x".data).text
      = "x".data ∧
    (applyTextReplacement "abc".data (JSNum.num 0) (JSNum.num 5) "x".data).text
      ≠ "abc".data := by decide

/-- C6 counterexample: the claim says the third matcher requires an actual
overlap between the error span and the word boundaries.  In the source the
third tier is `err.start <= caretPos && err.end > wordStart`, which also
accepts an error starting exactly at the caret.  With text `a bcd efg`,
caret 6 (adjusted to 5), word boundaries `[2,5)`, and the single error
`[5,8)` — disjoint from the word — the code still applies a correction. -/
theorem c6_counterexample :
    adjustedCaret "a bcd efg".data 6 = 5 ∧
    findWordStart "a bcd efg".data 5 = 2 ∧
    (¬ ((5 : Nat) = 2 ∧ (8 : Nat) = 5)) ∧
    (¬ ((5 : Nat) ≤ 2 ∧ (5 : Nat) ≤ 8)) ∧
    (¬ ((5 : Nat) < 5 ∧ (2 : Nat) < 8)) ∧
    (tryAutoCorrect true none 0 (some [⟨5, 8, ["X".data]⟩]) "a bcd efg".data 6 0).applied
      = true ∧
    (tryAutoCorrect true none 0 (some [⟨5, 8, ["X".data]⟩]) "a bcd efg".data 6 0).text
      = "a bcdX g".data := by decide

theorem tryAutoCorrect_success_eq
    (last0 : Option CorrectionRecord) (elemId now : Nat)
    (storedErrors : List ErrorRecord) (text : List Char) (caret0 : Nat)
    (e : ErrorRecord) (sugg : List Char) (rest : List (List Char))
    (hws : findWordStart text (adjustedCaret text caret0) ≠ adjustedCaret text caret0)
    (htrim : jsTrim (jsSubstring text (findWordStart text (adjustedCaret text caret0))
        (adjustedCaret text caret0)) ≠ [])
    (hmatch : findMatchingError storedErrors (findWordStart text (adjustedCaret text caret0))
        (adjustedCaret text caret0) = some e)
    (hsugg : e.suggestions = sugg :: rest) :
    tryAutoCorrect true last0 elemId (some storedErrors) text caret0 now =
      { text := jsSlice text 0 (e.start : Int) ++ (sugg ++ [' ']) ++
          jsSliceFrom text (e.endPos : Int),
        caret := ((e.start : Int) + (((sugg ++ [' ']).length : Nat) : Int)).toNat,
        lastAutoCorrection := some
          { elementId := elemId,
            originalWord := jsSubstring text e.start e.endPos,
            correctedWord := sugg,
            posStart := e.start,
            posEnd := e.start + (sugg ++ [' ']).length,
            timestamp := now },
        applied := true } := by
  simp only [tryAutoCorrect, if_neg hws, if_neg htrim, hmatch, hsugg,
    applyTextReplacement, Bool.true_eq_false, if_false, Option.getD_some]

theorem tryAutoCorrect_applied_inv (enabled : Bool) (last0 : Option CorrectionRecord)
    (elemId : Nat) (entry : Option (List ErrorRecord)) (text : List Char)
    (caret0 now : Nat)
    (h : (tryAutoCorrect enabled last0 elemId entry text caret0 now).applied = true) :
    enabled = true ∧
    ∃ storedErrors e sugg rest,
      entry = some storedErrors ∧
      findWordStart text (adjustedCaret text caret0) ≠ adjustedCaret text caret0 ∧
      jsTrim (jsSubstring text (findWordStart text (adjustedCaret text caret0))
        (adjustedCaret text caret0)) ≠ [] ∧
      findMatchingError storedErrors (findWordStart text (adjustedCaret text caret0))
        (adjustedCaret text caret0) = some e ∧
      e.suggestions = sugg :: rest := by
  cases enabled with
  | false => simp [tryAutoCorrect] at h
  | true =>
    refine ⟨rfl, ?_⟩
    cases entry with
    | none => simp [tryAutoCorrect] at h
    | some storedErrors =>
      by_cases hws : findWordStart text (adjustedCaret text caret0) = adjustedCaret text caret0
      · simp [tryAutoCorrect, hws] at h
      by_cases htrim : jsTrim (jsSubstring text
          (findWordStart text (adjustedCaret text caret0)) (adjustedCaret text caret0)) = []
      · simp [tryAutoCorrect, if_neg hws, htrim] at h
      rcases hm : findMatchingError storedErrors
          (findWordStart text (adjustedCaret text caret0)) (adjustedCaret text caret0)
          with _ | e
      · simp [tryAutoCorrect, if_neg hws, if_neg htrim, hm] at h
      rcases hsg : e.suggestions with _ | ⟨sugg, rest⟩
      · simp [tryAutoCorrect, if_neg hws, if_neg htrim, hm, hsg] at h
      exact ⟨storedErrors, e, sugg, rest, rfl, hws, htrim, hm, hsg⟩

/-- C2: when the space-triggered auto-correction finds a matching error with
at least one suggestion, it replaces exactly the error's span `[start, end)`
with the first suggestion followed by a single space and records a
CorrectionRecord with `originalWord` the replaced span text, `correctedWord`
the suggestion, and expected range
`[error.start, error.start + length(suggestion + " "))`. -/
theorem c2_autoCorrect_replaces_span_and_records
    (last0 : Option CorrectionRecord) (elemId now : Nat)
    (storedErrors : List ErrorRecord) (text : List Char) (caret0 : Nat)
    (e : ErrorRecord) (sugg : List Char) (rest : List (List Char))
    (hws : findWordStart text (adjustedCaret text caret0) ≠ adjustedCaret text caret0)
    (htrim : jsTrim (jsSubstring text (findWordStart text (adjustedCaret text caret0))
        (adjustedCaret text caret0)) ≠ [])
    (hmatch : findMatchingError storedErrors (findWordStart text (adjustedCaret text caret0))
        (adjustedCaret text caret0) = some e)
    (hsugg : e.suggestions = sugg :: rest)
    (hwf1 : e.start ≤ e.endPos) (hwf2 : e.endPos ≤ text.length) :
    tryAutoCorrect true last0 elemId (some storedErrors) text caret0 now =
      { text := text.take e.start ++ (sugg ++ [' ']) ++ text.drop e.endPos,
        caret := e.start + (sugg.length + 1),
        lastAutoCorrection := some
          { elementId := elemId,
            originalWord := (text.take e.endPos).drop e.start,
            correctedWord := sugg,
            posStart := e.start,
            posEnd := e.start + (sugg.length + 1),
            timestamp := now },
        applied := true } := by
  rw [tryAutoCorrect_success_eq last0 elemId now storedErrors text caret0 e sugg rest
      hws htrim hmatch hsugg]
  have hlen : (sugg ++ [' ']).length = sugg.length + 1 := by simp
  have hcar : (((e.start : Nat) : Int) + (((sugg ++ [' ']).length : Nat) : Int)).toNat
      = e.start + (sugg.length + 1) := by
    rw [← Nat.cast_add, Int.toNat_natCast, hlen]
  rw [jsSlice_zero_natCast text e.start (le_trans hwf1 hwf2), jsSliceFrom_natCast,
      jsSubstring_eq text e.start e.endPos hwf1 hwf2, min_eq_left hwf2, hcar, hlen]

/-- C2 witness: the theorem applied to the concrete scenario of spec
section 8 (text `I has a dog`, caret 6, error `[2,5)` with suggestion
`have`). -/
theorem c2_witness :
    tryAutoCorrect true none 0 (some [⟨2, 5, ["have".data]⟩]) "I has a dog".data 6 0 =
      { text := "I have  a dog".data, caret := 7,
        lastAutoCorrection := some ⟨0, "has".data, "have".data, 2, 7, 0⟩,
        applied := true } := by
  have h := c2_autoCorrect_replaces_span_and_records none 0 0 [⟨2, 5, ["have".data]⟩]
    "I has a dog".data 6 ⟨2, 5, ["have".data]⟩ "have".data []
    (by decide) (by decide) (by decide) (by decide) (by decide) (by decide)
  rw [h]
  decide

/-- C3: the revert fires only when the caret is exactly at
`correction.start + length(correctedWord)`; at any other caret it is a
silent no-op on the text, additionally discarding the record when the
divergence exceeds 2 characters (and keeping it otherwise); on success it
replaces `[posStart, posEnd)` with the original word and clears the record. -/
theorem c3_revert_precondition (c : CorrectionRecord) (elemId : Nat)
    (text : List Char) (caret : Nat)
    (helem : c.elementId = elemId)
    (hwf1 : c.posStart ≤ c.posEnd) (hwf2 : c.posEnd ≤ text.length) :
    (caret = c.posStart + c.correctedWord.length →
        tryRevertCorrection (some c) elemId text caret =
          { text := text.take c.posStart ++ c.originalWord ++ text.drop c.posEnd,
            caret := c.posStart + c.originalWord.length,
            lastAutoCorrection := none, reverted := true }) ∧
    (caret ≠ c.posStart + c.correctedWord.length →
        (tryRevertCorrection (some c) elemId text caret).text = text ∧
        (tryRevertCorrection (some c) elemId text caret).reverted = false ∧
        (((caret : Int) - ((c.posStart + c.correctedWord.length : Nat) : Int)).natAbs > 2 →
            (tryRevertCorrection (some c) elemId text caret).lastAutoCorrection = none) ∧
        (((caret : Int) - ((c.posStart + c.correctedWord.length : Nat) : Int)).natAbs ≤ 2 →
            (tryRevertCorrection (some c) elemId text caret).lastAutoCorrection = some c)) := by
  have hne : ¬ c.elementId ≠ elemId := by simp [helem]
  constructor
  · intro hcar
    have hcar2 : ¬ caret ≠ c.posStart + c.correctedWord.length := by simp [hcar]
    simp only [tryRevertCorrection, if_neg hne, if_neg hcar2,
      applyTextReplacement_num text c.posStart c.posEnd c.originalWord
        (le_trans hwf1 hwf2), Option.getD_some, min_eq_left hwf2]
    rw [← Nat.cast_add, Int.toNat_natCast]
  · intro hcar
    by_cases habs : 2 < ((caret : Int) - ((c.posStart : Int) + (c.correctedWord.length : Int))).natAbs
    · simp [tryRevertCorrection, if_neg hne, if_pos hcar, habs]
    · simp [tryRevertCorrection, if_neg hne, if_pos hcar, habs]

/-- C3 witness: the theorem applied to a concrete record (`has` corrected
to `have` at `[2,7)`) on the post-backspace text, with the caret exactly at
the expected boundary 6. -/
theorem c3_witness :
    tryRevertCorrection (some ⟨0, "has".data, "have".data, 2, 7, 0⟩) 0
        "I have a dog".data 6 =
      { text := "I have a dog".data.take 2 ++ "has".data ++ "I have a dog".data.drop 7,
        caret := 2 + "has".data.length,
        lastAutoCorrection := none, reverted := true } :=
  (c3_revert_precondition ⟨0, "has".data, "have".data, 2, 7, 0⟩ 0
      "I have a dog".data 6 (by decide) (by decide) (by decide)).1 (by decide)

theorem c9_single_slot_core :
    (∀ (enabled : Bool) (prior1 prior2 : Option CorrectionRecord) (elemId : Nat)
        (entry : Option (List ErrorRecord)) (text : List Char) (caret now : Nat),
        (tryAutoCorrect enabled prior1 elemId entry text caret now).applied = true →
        ∃ rec : CorrectionRecord,
          (tryAutoCorrect enabled prior1 elemId entry text caret now).lastAutoCorrection
            = some rec ∧
          (tryAutoCorrect enabled prior2 elemId entry text caret now).lastAutoCorrection
            = some rec) ∧
    (∀ (r : CorrectionRecord) (elemId : Nat) (text : List Char) (caret : Nat),
        r.elementId ≠ elemId →
        tryRevertCorrection (some r) elemId text caret =
          { text := text, caret := caret, lastAutoCorrection := some r,
            reverted := false }) ∧
    (∀ (elemId : Nat) (text : List Char) (caret : Nat),
        tryRevertCorrection none elemId text caret =
          { text := text, caret := caret, lastAutoCorrection := none,
            reverted := false }) := by
  refine ⟨?_, ?_, ?_⟩
  · intro enabled prior1 prior2 elemId entry text caret now h
    obtain ⟨hen, storedErrors, e, sugg, rest, hentry, hws, htrim, hm, hsg⟩ :=
      tryAutoCorrect_applied_inv enabled prior1 elemId entry text caret now h
    subst hen
    subst hentry
    rw [tryAutoCorrect_success_eq prior1 elemId now storedErrors text caret e sugg rest
        hws htrim hm hsg,
      tryAutoCorrect_success_eq prior2 elemId now storedErrors text caret e sugg rest
        hws htrim hm hsg]
    exact ⟨_, rfl, rfl⟩
  · intro r elemId text caret hne
    simp [tryRevertCorrection, if_pos hne]
  · intro elemId text caret
    rfl

/-- C9: the correction slot is a single process-wide cell: a successful
auto-correction stores the new record regardless of what the slot held
before (overwriting any earlier record, which is thereby lost), and a revert
attempt aimed at a correction no longer in the slot — here, on an element
that the stored record does not belong to — is a total no-op: text, caret
and slot unchanged, returning false, with no failure. -/
theorem c9_single_slot :
    (∀ (enabled : Bool) (prior1 prior2 : Option CorrectionRecord) (elemId : Nat)
        (entry : Option (List ErrorRecord)) (text : List Char) (caret now : Nat),
        (tryAutoCorrect enabled prior1 elemId entry text caret now).applied = true →
        ∃ rec : CorrectionRecord,
          (tryAutoCorrect enabled prior1 elemId entry text caret now).lastAutoCorrection
            = some rec ∧
          (tryAutoCorrect enabled prior2 elemId entry text caret now).lastAutoCorrection
            = some rec) ∧
    (∀ (r : CorrectionRecord) (elemId : Nat) (text : List Char) (caret : Nat),
        r.elementId ≠ elemId →
        tryRevertCorrection (some r) elemId text caret =
          { text := text, caret := caret, lastAutoCorrection := some r,
            reverted := false }) ∧
    (∀ (elemId : Nat) (text : List Char) (caret : Nat),
        tryRevertCorrection none elemId text caret =
          { text := text, caret := caret, lastAutoCorrection := none,
            reverted := false }) :=
  c9_single_slot_core

/-- C9 witness: a second correction's record (element 2) has displaced the
first (element 1); the revert attempt on element 1 — where the first
correction would have been reverted — leaves the text untouched and returns
false. -/
theorem c9_witness :
    (∃ rec : CorrectionRecord,
        (tryAutoCorrect true (some ⟨1, "has".data, "have".data, 2, 7, 0⟩) 2
            (some [⟨0, 3, ["the".data]⟩]) "teh cat".data 4 1).lastAutoCorrection
          = some rec ∧
        (tryAutoCorrect true none 2
            (some [⟨0, 3, ["the".data]⟩]) "teh cat".data 4 1).lastAutoCorrection
          = some rec) ∧
    tryRevertCorrection (some ⟨2, "teh".data, "the".data, 0, 4, 1⟩) 1
        "I have  a dog".data 6 =
      { text := "I have  a dog".data, caret := 6,
        lastAutoCorrection := some ⟨2, "teh".data, "the".data, 0, 4, 1⟩,
        reverted := false } :=
  ⟨c9_single_slot.1 true (some ⟨1, "has".data, "have".data, 2, 7, 0⟩) none 2
      (some [⟨0, 3, ["the".data]⟩]) "teh cat".data 4 1 (by decide),
   c9_single_slot.2.1 ⟨2, "teh".data, "the".data, 0, 4, 1⟩ 1
      "I have  a dog".data 6 (by decide)⟩

/-- C5 (amended): a replacement aborts — leaving the surface completely
untouched — exactly when `start` or `end` is `NaN`.  Out-of-range offsets do
not abort: `slice` clamps them and the replacement proceeds (in particular,
with `end` past the text the whole tail is dropped).  In every case the new
content is computed in full, as one expression, before any mutation: for
in-range offsets the result is exactly
`text.take start ++ replacement ++ text.drop end`. -/
theorem c5_amended_replacement (text repl : List Char) :
    (∀ e : JSNum, applyTextReplacement text JSNum.nan e repl =
        { text := text, caret := none }) ∧
    (∀ s : JSNum, applyTextReplacement text s JSNum.nan repl =
        { text := text, caret := none }) ∧
    (∀ s e : Nat, s ≤ e → e ≤ text.length →
        (applyTextReplacement text (JSNum.num (s : Int)) (JSNum.num (e : Int)) repl).text =
          text.take s ++ repl ++ text.drop e) ∧
    (∀ s e : Nat, s ≤ text.length → text.length ≤ e →
        (applyTextReplacement text (JSNum.num (s : Int)) (JSNum.num (e : Int)) repl).text =
          text.take s ++ repl) := by
  refine ⟨?_, ?_, ?_, ?_⟩
  · intro e
    cases e <;> rfl
  · intro s
    cases s <;> rfl
  · intro s e hse he
    rw [applyTextReplacement_num text s e repl (le_trans hse he), min_eq_left he]
  · intro s e hs he
    rw [applyTextReplacement_num text s e repl hs, min_eq_right he]
    simp

/-- C5 witness: the amended theorem applied to text `abc` with the in-range
pair `(1, 2)` and the out-of-range pair `(0, 5)`. -/
theorem c5_witness :
    (applyTextReplacement "abc".data (JSNum.num 1) (JSNum.num 2) "XY".data).text =
      "abc".data.take 1 ++ "XY".data ++ "abc".data.drop 2 ∧
    (applyTextReplacement "abc".data (JSNum.num 0) (JSNum.num 5) "x".data).text =
      "abc".data.take 0 ++ "x".data :=
  ⟨(c5_amended_replacement "abc".data "XY".data).2.2.1 1 2 (by decide) (by decide),
   (c5_amended_replacement "abc".data "x".data).2.2.2 0 5 (by decide) (by decide)⟩

/-- Analyzer stub that always throws (models a failing `lint` invocation). -/
def lintStubThrow : List Char → Except (List Char) (List LintError) :=
  fun _ => Except.error "boom".data

/-- C8: `analyzeText` returns an empty list without invoking the analyzer
whenever the text trims to empty (the result is `[]` for every possible
linter, so the linter is never consulted), and whenever the invocation
throws (`Except.error`) the exception is caught and the empty list returned;
a missing linter also yields `[]`.  The function is total: no failure ever
propagates to the caller. -/
theorem c8_analyze_guards
    (lintFn : List Char → Except (List Char) (List LintError)) (text : List Char) :
    (jsTrim text = [] → analyzeText (some lintFn) text = []) ∧
    (∀ msg, lintFn text = Except.error msg → analyzeText (some lintFn) text = []) ∧
    analyzeText none text = [] := by
  refine ⟨?_, ?_, rfl⟩
  · intro h
    simp [analyzeText, h]
  · intro msg h
    simp [analyzeText, h]

/-- C8 witness: a throwing linter on `hi` and an arbitrary linter on the
whitespace-only text `  ` both yield the empty error list. -/
theorem c8_witness :
    analyzeText (some lintStubThrow) "hi".data = [] ∧
    analyzeText (some lintStubThrow) "  ".data = [] :=
  ⟨(c8_analyze_guards lintStubThrow "hi".data).2.1 "boom".data rfl,
   (c8_analyze_guards lintStubThrow "  ".data).1 (by decide)⟩

/-- C10: for `p ≤ length text`, `findWordStart text p` returns an `s ≤ p`
such that every character of `text[s..p)` is non-whitespace and either
`s = 0` or `text[s-1]` is whitespace — the start of the word ending at `p`. -/
theorem c10_findWordStart_correct (text : List Char) (p : Nat) (hp : p ≤ text.length) :
    findWordStart text p ≤ p ∧
    (∀ i, findWordStart text p ≤ i → i < p →
        ∃ c, text[i]? = some c ∧ isJsSpace c = false) ∧
    (findWordStart text p = 0 ∨
        ∃ c, text[findWordStart text p - 1]? = some c ∧ isJsSpace c = true) := by
  induction p with
  | zero => simp [findWordStart]
  | succ s ih =>
      have hs : s < text.length := hp
      have hcs : text[s]? = some text[s] := List.getElem?_eq_getElem hs
      cases hspace : isJsSpace text[s] with
      | true =>
          have hstop : findWordStart text (s + 1) = s + 1 := by
            simp [findWordStart, jsCharTestSpace, hcs, hspace]
          refine ⟨?_, ?_, ?_⟩
          · rw [hstop]
          · intro i h1 h2
            rw [hstop] at h1
            omega
          · right
            rw [hstop]
            exact ⟨text[s], by simp [hcs], hspace⟩
      | false =>
          have hrec : findWordStart text (s + 1) = findWordStart text s := by
            simp [findWordStart, jsCharTestSpace, hcs, hspace]
          obtain ⟨ih1, ih2, ih3⟩ := ih (Nat.le_of_succ_le hp)
          refine ⟨?_, ?_, ?_⟩
          · rw [hrec]
            exact Nat.le_trans ih1 (Nat.le_succ s)
          · intro i h1 h2
            rw [hrec] at h1
            by_cases hi : i < s
            · exact ih2 i h1 hi
            · have heq : i = s := by omega
              subst heq
              exact ⟨text[i], hcs, hspace⟩
          · rw [hrec]
            exact ih3

/-- C10 witness: the theorem applied to text `a bcd efg` at position 5
(where the returned word start is 2, after the space at index 1). -/
theorem c10_witness :
    findWordStart "a bcd efg".data 5 ≤ 5 ∧
    (∃ c, "a bcd efg".data[4]? = some c ∧ isJsSpace c = false) ∧
    (findWordStart "a bcd efg".data 5 = 0 ∨
        ∃ c, "a bcd efg".data[findWordStart "a bcd efg".data 5 - 1]? = some c ∧
          isJsSpace c = true) := by
  obtain ⟨h1, h2, h3⟩ := c10_findWordStart_correct "a bcd efg".data 5 (by decide)
  exact ⟨h1, h2 4 (by decide) (by decide), h3⟩

theorem renderSplice_length_ge (text html : List Char) (e : LintError)
    (hse : e.start ≤ e.endPos) (heh : e.endPos ≤ html.length)
    (het : e.endPos ≤ text.length) :
    html.length ≤ (renderSplice text html e).length := by
  unfold renderSplice spanHtml
  rw [jsSlice_zero_natCast html e.start (le_trans hse heh),
      jsSliceFrom_natCast html e.endPos, jsSlice_natCast text e.start e.endPos]
  simp only [List.length_append, List.length_take, List.length_drop]
  omega

/-- C7: `renderErrors` processes the error spans in descending `start` order
(the comparator sort yields a descending-sorted list), and for any two error
records with spans inside the text — in particular the overlapping pair
`[0,5)` and `[3,8)` over `abcdefgh` — every splice performed on the
accumulating markup string uses an in-bounds, non-inverted range, so the
string rebuild is total (nothing can throw). -/
theorem c7_render_descending_inbounds :
    (∀ errors : List LintError, List.Sorted errorDescOrder (sortErrorsDesc errors)) ∧
    (∀ (text : List Char) (e1 e2 : LintError),
        e1.start ≤ e1.endPos → e1.endPos ≤ text.length →
        e2.start ≤ e2.endPos → e2.endPos ≤ text.length →
        renderSplicesOk text [e1, e2] = true) := by
  constructor
  · intro errors
    exact List.sorted_insertionSort errorDescOrder errors
  · intro text e1 e2 h1 h2 h3 h4
    have key : ∀ a b : LintError, a.start ≤ a.endPos → a.endPos ≤ text.length →
        b.start ≤ b.endPos → b.endPos ≤ text.length →
        renderSplicesOkAux text text [a, b] = true := by
      intro a b ha1 ha2 hb1 hb2
      have hlen : text.length ≤ (renderSplice text text a).length :=
        renderSplice_length_ge text text a ha1 ha2 ha2
      simp only [renderSplicesOkAux, Bool.and_eq_true, decide_eq_true_eq, and_true]
      exact ⟨⟨ha1, ha2⟩, hb1, le_trans hb2 hlen⟩
    unfold renderSplicesOk sortErrorsDesc
    by_cases h : errorDescOrder e1 e2
    · rw [show List.insertionSort errorDescOrder [e1, e2] = [e1, e2] from by
        simp [List.insertionSort, List.orderedInsert, if_pos h]]
      exact key e1 e2 h1 h2 h3 h4
    · rw [show List.insertionSort errorDescOrder [e1, e2] = [e2, e1] from by
        simp [List.insertionSort, List.orderedInsert, if_neg h]]
      exact key e2 e1 h3 h4 h1 h2

/-- C7 witness: the splice-bounds part applied to the concrete overlapping
pair `[0,5)` / `[3,8)` over `abcdefgh`. -/
theorem c7_witness :
    renderSplicesOk "abcdefgh".data
      [⟨0, 5, "Spelling".data, []⟩, ⟨3, 8, "Style".data, []⟩] = true :=
  c7_render_descending_inbounds.2 "abcdefgh".data ⟨0, 5, "Spelling".data, []⟩
    ⟨3, 8, "Style".data, []⟩ (by decide) (by decide) (by decide) (by decide)

/-- C6 (amended): the three matchers are tried in order against the word
boundaries `[wordStart, caretPos)` — (1) exact span equality, (2) span fully
containing the boundaries, (3) the source's third condition
`err.start ≤ caretPos ∧ err.end > wordStart`, which accepts any overlap
*and also* an error beginning exactly at the caret (it is strictly weaker
than overlap of the half-open spans); the first matcher with a hit wins
(its first list element); if no matcher yields an error, or the matched
error has no suggestions, no correction occurs and the text is unchanged. -/
theorem c6_amended_three_tier (storedErrors : List ErrorRecord) (ws cp : Nat)
    (last0 : Option CorrectionRecord) (elemId now : Nat)
    (text : List Char) (caret0 : Nat)
    (hws2 : findWordStart text (adjustedCaret text caret0) = ws)
    (hcp : adjustedCaret text caret0 = cp) :
    (∀ e, findMatchingError storedErrors ws cp = some e →
        e ∈ storedErrors ∧
        ((e.start = ws ∧ e.endPos = cp) ∨ (e.start ≤ ws ∧ cp ≤ e.endPos) ∨
          (e.start ≤ cp ∧ ws < e.endPos))) ∧
    ((∃ e ∈ storedErrors, e.start = ws ∧ e.endPos = cp) →
        ∃ e, findMatchingError storedErrors ws cp = some e ∧
          e.start = ws ∧ e.endPos = cp) ∧
    ((∀ e ∈ storedErrors, ¬(e.start = ws ∧ e.endPos = cp)) →
        (∃ e ∈ storedErrors, e.start ≤ ws ∧ cp ≤ e.endPos) →
        ∃ e, findMatchingError storedErrors ws cp = some e ∧
          e.start ≤ ws ∧ cp ≤ e.endPos) ∧
    ((∀ e ∈ storedErrors, ¬(e.start = ws ∧ e.endPos = cp) ∧
        ¬(e.start ≤ ws ∧ cp ≤ e.endPos) ∧ ¬(e.start ≤ cp ∧ ws < e.endPos)) →
        findMatchingError storedErrors ws cp = none) ∧
    (findMatchingError storedErrors ws cp = none →
        tryAutoCorrect true last0 elemId (some storedErrors) text caret0 now =
          { text := text, caret := caret0, lastAutoCorrection := last0,
            applied := false }) ∧
    (∀ e, findMatchingError storedErrors ws cp = some e → e.suggestions = [] →
        tryAutoCorrect true last0 elemId (some storedErrors) text caret0 now =
          { text := text, caret := caret0, lastAutoCorrection := last0,
            applied := false }) := by
  refine ⟨?_, ?_, ?_, ?_, ?_, ?_⟩
  · intro e he
    unfold findMatchingError at he
    rcases hf1 : storedErrors.find? (fun err =>
        decide (err.start = ws ∧ err.endPos = cp)) with _ | a
    · rw [hf1] at he
      rcases hf2 : storedErrors.find? (fun err =>
          decide (err.start ≤ ws ∧ cp ≤ err.endPos)) with _ | b
      · rw [hf2] at he
        simp only [] at he
        have hmem := List.mem_of_find?_eq_some he
        have hp := List.find?_some he
        simp only [decide_eq_true_eq] at hp
        exact ⟨hmem, Or.inr (Or.inr hp)⟩
      · rw [hf2] at he
        simp only [Option.some.injEq] at he
        subst he
        have hmem := List.mem_of_find?_eq_some hf2
        have hp := List.find?_some hf2
        simp only [decide_eq_true_eq] at hp
        exact ⟨hmem, Or.inr (Or.inl hp)⟩
    · rw [hf1] at he
      simp only [Option.some.injEq] at he
      subst he
      have hmem := List.mem_of_find?_eq_some hf1
      have hp := List.find?_some hf1
      simp only [decide_eq_true_eq] at hp
      exact ⟨hmem, Or.inl hp⟩
  · intro hex
    have h1 : (storedErrors.find? (fun err =>
        decide (err.start = ws ∧ err.endPos = cp))).isSome := by
      rw [List.find?_isSome]
      obtain ⟨e, hmem, hpe⟩ := hex
      exact ⟨e, hmem, by simpa using hpe⟩
    rcases hf1 : storedErrors.find? (fun err =>
        decide (err.start = ws ∧ err.endPos = cp)) with _ | a
    · rw [hf1] at h1
      simp at h1
    · have hp := List.find?_some hf1
      simp only [decide_eq_true_eq] at hp
      refine ⟨a, ?_, hp⟩
      unfold findMatchingError
      rw [hf1]
  · intro hno hex
    have hf1 : storedErrors.find? (fun err =>
        decide (err.start = ws ∧ err.endPos = cp)) = none := by
      rw [List.find?_eq_none]
      intro x hx
      simpa using hno x hx
    have h2 : (storedErrors.find? (fun err =>
        decide (err.start ≤ ws ∧ cp ≤ err.endPos))).isSome := by
      rw [List.find?_isSome]
      obtain ⟨e, hmem, hpe⟩ := hex
      exact ⟨e, hmem, by simpa using hpe⟩
    rcases hf2 : storedErrors.find? (fun err =>
        decide (err.start ≤ ws ∧ cp ≤ err.endPos)) with _ | b
    · rw [hf2] at h2
      simp at h2
    · have hp := List.find?_some hf2
      simp only [decide_eq_true_eq] at hp
      refine ⟨b, ?_, hp⟩
      unfold findMatchingError
      rw [hf1, hf2]
  · intro hall
    have hf1 : storedErrors.find? (fun err =>
        decide (err.start = ws ∧ err.endPos = cp)) = none := by
      rw [List.find?_eq_none]
      intro x hx
      simpa using (hall x hx).1
    have hf2 : storedErrors.find? (fun err =>
        decide (err.start ≤ ws ∧ cp ≤ err.endPos)) = none := by
      rw [List.find?_eq_none]
      intro x hx
      simpa using (hall x hx).2.1
    have hf3 : storedErrors.find? (fun err =>
        decide (err.start ≤ cp ∧ ws < err.endPos)) = none := by
      rw [List.find?_eq_none]
      intro x hx
      simpa using (hall x hx).2.2
    unfold findMatchingError
    rw [hf1, hf2, hf3]
  · intro hnone
    by_cases hg1 : findWordStart text (adjustedCaret text caret0) = adjustedCaret text caret0
    · simp [tryAutoCorrect, hg1]
    by_cases hg2 : jsTrim (jsSubstring text
        (findWordStart text (adjustedCaret text caret0)) (adjustedCaret text caret0)) = []
    · simp [tryAutoCorrect, if_neg hg1, hg2]
    · have hm : findMatchingError storedErrors
          (findWordStart text (adjustedCaret text caret0)) (adjustedCaret text caret0)
          = none := by
        rw [hws2, hcp]
        exact hnone
      simp [tryAutoCorrect, if_neg hg1, if_neg hg2, hm]
  · intro e he hes
    by_cases hg1 : findWordStart text (adjustedCaret text caret0) = adjustedCaret text caret0
    · simp [tryAutoCorrect, hg1]
    by_cases hg2 : jsTrim (jsSubstring text
        (findWordStart text (adjustedCaret text caret0)) (adjustedCaret text caret0)) = []
    · simp [tryAutoCorrect, if_neg hg1, hg2]
    · have hm : findMatchingError storedErrors
          (findWordStart text (adjustedCaret text caret0)) (adjustedCaret text caret0)
          = some e := by
        rw [hws2, hcp]
        exact he
      simp [tryAutoCorrect, if_neg hg1, if_neg hg2, hm, hes]

/-- C6 witness: the amended theorem applied to the scenario where the stored
error `[5,8)` touches the word boundaries `[2,5)` only at the caret: the
matched record satisfies the source's third-tier condition. -/
theorem c6_witness :
    (⟨5, 8, ["X".data]⟩ : ErrorRecord) ∈ [(⟨5, 8, ["X".data]⟩ : ErrorRecord)] ∧
    (((5 : Nat) = 2 ∧ (8 : Nat) = 5) ∨ ((5 : Nat) ≤ 2 ∧ (5 : Nat) ≤ 8) ∨
      ((5 : Nat) ≤ 5 ∧ (2 : Nat) < 8)) :=
  (c6_amended_three_tier [⟨5, 8, ["X".data]⟩] 2 5 none 0 0 "a bcd efg".data 6
      (by decide) (by decide)).1 ⟨5, 8, ["X".data]⟩ (by decide)

end HarperChecker
